import Mathlib

/-!
Verification of the Aurum.Gold blockchain node (TypeScript sources) against its
natural-language specification.

Shallow embedding conventions:
* JavaScript numbers used for balances, stakes, amounts and fees are modelled
  as rationals (`Rat`); sequence counters ("nonces") and timestamps as `Nat`.
* `Map<string, T>` is modelled as an insertion-ordered association list
  `List (String × T)` with JS `Map.get` / `Map.set` / `Map.has` semantics.
* SHA-256, JSON serialisation, scrypt, and the AES-256-CTR keystream are
  library primitives external to the repository; they enter the embedding as
  components of explicit model structures (`HashModel`, `CryptoPrimitives`)
  so that every theorem holds for an arbitrary interpretation of them, and
  concrete counterexamples instantiate them with executable stand-ins.
* `Math.random()` and `Date.now()` are nondeterministic inputs; they become
  explicit arguments (`r : Rat`, `now : Nat`) of the functions that call them.
-/

namespace Aurum

/-- The 64-character all-zero string `"0".repeat(64)`. -/
def zeros64 : String := String.mk (List.replicate 64 '0')

/-! ## JS `Map<string, α>` as an insertion-ordered association list -/

/-- Insertion-ordered string-keyed map, mirroring a JS `Map<string, α>`. -/
abbrev SMap (α : Type) := List (String × α)

/-- JS `Map.get`: first binding of the key, if any. -/
def mapGet {α : Type} : SMap α → String → Option α
  | [], _ => none
  | (k2, v) :: rest, k => if k2 = k then some v else mapGet rest k

/-- JS `Map.set`: overwrite in place if the key exists, else append. -/
def mapSet {α : Type} : SMap α → String → α → SMap α
  | [], k, v => [(k, v)]
  | (k2, v2) :: rest, k, v =>
    if k2 = k then (k2, v) :: rest else (k2, v2) :: mapSet rest k v

/-- JS `Map.has`. -/
def mapHas {α : Type} (m : SMap α) (k : String) : Bool := (mapGet m k).isSome

/-- JS `Array.from(map.values())`: values in insertion order. -/
def mapValues {α : Type} (m : SMap α) : List α := m.map Prod.snd

/-! ## Data model (src/backend/types/blockchain-types.ts) -/

/-- `TransactionType` enum. -/
inductive TransactionType where
  | REGULAR
  | REWARD
  | STAKE
  | UNSTAKE
  | CONTRACT_DEPLOY
  | CONTRACT_CALL
deriving DecidableEq, Repr

/-- The fields of a `Transaction` other than `signature`; this is exactly the
record produced by `const { signature, ...txWithoutSignature } = transaction`. -/
structure TxCore where
  id : String
  txType : TransactionType
  fromA : String
  toA : String
  amount : Rat
  fee : Rat
  timestamp : Nat
  dataF : Option String
  nonce : Nat
deriving DecidableEq, Repr

/-- `Transaction` record. -/
structure Transaction where
  id : String
  txType : TransactionType
  fromA : String
  toA : String
  amount : Rat
  fee : Rat
  timestamp : Nat
  signature : String
  dataF : Option String
  nonce : Nat
deriving DecidableEq, Repr

/-- The destructuring `const { signature, ...txWithoutSignature } = transaction`. -/
def txWithoutSignature (tx : Transaction) : TxCore :=
  { id := tx.id, txType := tx.txType, fromA := tx.fromA, toA := tx.toA,
    amount := tx.amount, fee := tx.fee, timestamp := tx.timestamp,
    dataF := tx.dataF, nonce := tx.nonce }

/-- Re-attach a signature to a core record (used by the wallet signing path). -/
def TxCore.withSignature (c : TxCore) (s : String) : Transaction :=
  { id := c.id, txType := c.txType, fromA := c.fromA, toA := c.toA,
    amount := c.amount, fee := c.fee, timestamp := c.timestamp,
    signature := s, dataF := c.dataF, nonce := c.nonce }

/-- `BlockHeader` record. -/
structure BlockHeader where
  index : Nat
  previousHash : String
  timestamp : Nat
  merkleRoot : String
  validator : String
  nonce : Nat
deriving DecidableEq, Repr

/-- `Block` record. -/
structure Block where
  header : BlockHeader
  transactions : List Transaction
  signature : String
deriving DecidableEq, Repr

/-- `Validator` record. -/
structure Validator where
  address : String
  stake : Rat
  isActive : Bool
  lastBlockValidated : Nat
  totalBlocksValidated : Nat
  rewardAddress : String
  registeredAt : Nat
deriving DecidableEq, Repr

/-- `Account` record (the optional contract fields `code` and `storage` are
never touched by the ledger code and are omitted). -/
structure Account where
  address : String
  balance : Rat
  nonce : Nat
  stake : Rat
deriving DecidableEq, Repr

/-- `ChainParams` record. -/
structure ChainParams where
  networkId : String
  blockTime : Nat
  blockReward : Rat
  minStake : Rat
  maxSupply : Rat
  initialSupply : Rat
  difficultyAdjustmentInterval : Nat
  genesisTimestamp : Nat
deriving DecidableEq, Repr

/-- The chain parameters hard-coded in `NodeService`'s constructor
(src/backend/node/node-service.ts). -/
def nodeChainParams : ChainParams :=
  { networkId := "aurum-mainnet", blockTime := 15000, blockReward := 5,
    minStake := 1000, maxSupply := 100000000, initialSupply := 10000000,
    difficultyAdjustmentInterval := 2016, genesisTimestamp := 1609459200000 }

/-- Interpretation of the external hashing and serialisation primitives:
`sha256hex s` models `createHash("sha256").update(s).digest("hex")`,
`encodeHeader` models `JSON.stringify(block.header)`, and `encodeTxNoSig`
models `JSON.stringify(txWithoutSignature)`.  All ledger theorems are proved
for every interpretation. -/
structure HashModel where
  sha256hex : String → String
  encodeHeader : BlockHeader → String
  encodeTxNoSig : TxCore → String

/-! ## Merkle tree (src/backend/utils/merkle.ts) -/

/-- `hashPair(left, right)`: SHA-256 of the concatenation. -/
def hashPair (sha : String → String) (left right : String) : String :=
  sha (left ++ right)

/-- One pass of the `for (let i = 0; i < leaves.length; i += 2)` loop in
`buildMerkleTree`: pair up adjacent nodes, duplicating the last one when the
level has odd length (`right = i + 1 < leaves.length ? leaves[i+1] : left`). -/
def levelUp (sha : String → String) : List String → List String
  | [] => []
  | [x] => [hashPair sha x x]
  | x :: y :: rest => hashPair sha x y :: levelUp sha rest

/-- `buildMerkleTree(leaves)`: repeatedly collapse levels until one node is
left; the empty list gives the all-zero string. -/
def buildMerkleTree (sha : String → String) (leaves : List String) : String :=
  match leaves with
  | [] => zeros64
  | [x] => x
  | x :: y :: rest => buildMerkleTree sha (levelUp sha (x :: y :: rest))
termination_by leaves.length
decreasing_by
  have hlen : ∀ l : List String, (levelUp sha l).length = (l.length + 1) / 2 := by
    intro l
    induction l using levelUp.induct sha with
    | case1 => simp [levelUp]
    | case2 _ => simp [levelUp]
    | case3 x y rest ih =>
      simp only [levelUp, List.length_cons, ih]
      omega
  simp only [hlen, List.length_cons]
  omega

/-- `calculateTransactionHash(transaction)`: SHA-256 of the canonical encoding
with the signature field omitted (identical code appears in merkle.ts and in
the Blockchain class). -/
def calculateTransactionHash (M : HashModel) (tx : Transaction) : String :=
  M.sha256hex (M.encodeTxNoSig (txWithoutSignature tx))

/-- `calculateMerkleRoot(transactions)`. -/
def calculateMerkleRoot (M : HashModel) (transactions : List Transaction) : String :=
  if transactions.length = 0 then zeros64
  else buildMerkleTree M.sha256hex (transactions.map (calculateTransactionHash M))

/-! ## Blockchain core (src/backend/core/blockchain.ts)

The `Blockchain` class's mutable fields become a state record; each method
becomes a function from the state (plus explicit `now` / `r` arguments for
`Date.now()` / `Math.random()`) to the updated state and the return value. -/

/-- The mutable fields of the `Blockchain` class. -/
structure BlockchainState where
  chain : List Block
  pendingTransactions : List Transaction
  validators : SMap Validator
  accounts : SMap Account
  chainParams : ChainParams
deriving DecidableEq

/-- `calculateBlockHash(block)`: SHA-256 of the JSON-encoded header. -/
def calculateBlockHash (M : HashModel) (block : Block) : String :=
  M.sha256hex (M.encodeHeader block.header)

/-- `getLatestBlock()`: `chain[chain.length - 1]`; `none` for an empty chain
(where the source would return `undefined` and crash downstream; the
constructor guarantees a genesis block, so this case is unreachable). -/
def getLatestBlock (st : BlockchainState) : Option Block :=
  st.chain.getLast?

/-- The genesis block built by `initializeGenesisBlock`: the header's
`merkleRoot` is overwritten with the hash of the block computed while the
header still carried the all-zero `merkleRoot`. -/
def genesisBlock (M : HashModel) (params : ChainParams) : Block :=
  let header0 : BlockHeader :=
    { index := 0, previousHash := zeros64, timestamp := params.genesisTimestamp,
      merkleRoot := zeros64, validator := "AURUM_GENESIS", nonce := 0 }
  let block0 : Block := { header := header0, transactions := [], signature := "GENESIS_SIGNATURE" }
  let blockHash := calculateBlockHash M block0
  { block0 with header := { header0 with merkleRoot := blockHash } }

/-- The state right after the `Blockchain` constructor ran. -/
def initialState (M : HashModel) (params : ChainParams) : BlockchainState :=
  { chain := [genesisBlock M params], pendingTransactions := [],
    validators := [], accounts := [], chainParams := params }

/-- `verifyTransactionSignature(transaction)`: network rewards are exempt;
otherwise the stub only requires a non-empty signature string (the computed
transaction hash is unused by the source). -/
def verifyTransactionSignature (tx : Transaction) : Bool :=
  if tx.txType = TransactionType.REWARD ∧ tx.fromA = "NETWORK" then true
  else tx.signature ≠ ""

/-- `isValidTransaction(transaction)`: reward/"NETWORK" exemption, signature
stub, sender-account existence, kind-specific balance checks, and the
sequence-number (`nonce`) check, in source order. -/
def isValidTransaction (st : BlockchainState) (tx : Transaction) : Bool :=
  if tx.txType = TransactionType.REWARD ∧ tx.fromA = "NETWORK" then true
  else if ¬ verifyTransactionSignature tx then false
  else
    match mapGet st.accounts tx.fromA with
    | none => false
    | some sender =>
      -- the `switch (transaction.type)` block; each failing check returns
      -- `false`, and the surviving control flow reaches the nonce check
      let kindOk : Bool :=
        match tx.txType with
        | TransactionType.REGULAR => ¬ (sender.balance < tx.amount + tx.fee)
        | TransactionType.STAKE =>
          ¬ (sender.balance < tx.amount + tx.fee) ∧ ¬ (tx.amount < st.chainParams.minStake)
        | TransactionType.UNSTAKE =>
          ¬ (sender.stake < tx.amount) ∧ ¬ (sender.balance < tx.fee)
        | _ => true
      if ¬ kindOk then false
      else tx.nonce = sender.nonce

/-- `verifyBlockSignature(block)`: genesis exempt; the proposer must be a
known validator; the stub then only requires a non-empty signature. -/
def verifyBlockSignature (st : BlockchainState) (block : Block) : Bool :=
  if block.header.index = 0 then true
  else
    match mapGet st.validators block.header.validator with
    | none => false
    | some _ => block.signature ≠ ""

/-- `isValidBlock(block)`: index, parent hash, Merkle root, proposer
signature, then each embedded transaction validated with
`isValidTransaction` against the current (pre-block) state. -/
def isValidBlock (M : HashModel) (st : BlockchainState) (block : Block) : Bool :=
  match getLatestBlock st with
  | none => false
  | some previousBlock =>
    if block.header.index ≠ previousBlock.header.index + 1 then false
    else if block.header.previousHash ≠ calculateBlockHash M previousBlock then false
    else if block.header.merkleRoot ≠ calculateMerkleRoot M block.transactions then false
    else if ¬ verifyBlockSignature st block then false
    else block.transactions.all (fun tx => isValidTransaction st tx)

/-- `getOrCreateAccount(address)`: returns the account and the possibly
extended accounts map. -/
def getOrCreateAccount (accounts : SMap Account) (address : String) :
    Account × SMap Account :=
  match mapGet accounts address with
  | some acc => (acc, accounts)
  | none =>
    let acc : Account := { address := address, balance := 0, nonce := 0, stake := 0 }
    (acc, mapSet accounts address acc)

/-- `processRegularTransaction(transaction)`.  In the source `sender` and
`recipient` are references into the accounts map, so when `from === to` the
two balance updates hit the same object; the embedding makes that aliasing
explicit. -/
def processRegularTransaction (accounts : SMap Account) (tx : Transaction) :
    SMap Account :=
  let (sender, m1) := getOrCreateAccount accounts tx.fromA
  let (recipient, m2) := getOrCreateAccount m1 tx.toA
  if tx.fromA = tx.toA then
    let acc := { sender with
      balance := sender.balance - (tx.amount + tx.fee) + tx.amount
      nonce := sender.nonce + 1 }
    mapSet (mapSet m2 tx.fromA acc) tx.toA acc
  else
    let sender2 := { sender with
      balance := sender.balance - (tx.amount + tx.fee)
      nonce := sender.nonce + 1 }
    let recipient2 := { recipient with balance := recipient.balance + tx.amount }
    mapSet (mapSet m2 tx.fromA sender2) tx.toA recipient2

/-- `processRewardTransaction(transaction)`: credit the recipient. -/
def processRewardTransaction (accounts : SMap Account) (tx : Transaction) :
    SMap Account :=
  let (validator, m1) := getOrCreateAccount accounts tx.toA
  mapSet m1 tx.toA { validator with balance := validator.balance + tx.amount }

/-- `registerValidator(address, stake)` (public method; also called from
`processStakeTransaction`).  `Date.now()` is the explicit `now` argument. -/
def registerValidator (now : Nat) (st : BlockchainState) (address : String)
    (stake : Rat) : Bool × BlockchainState :=
  if stake < st.chainParams.minStake then (false, st)
  else
    match mapGet st.validators address with
    | some validator =>
      let v2 := { validator with stake := validator.stake + stake, isActive := true }
      (true, { st with validators := mapSet st.validators address v2 })
    | none =>
      let v : Validator :=
        { address := address, stake := stake, isActive := true,
          lastBlockValidated := (match getLatestBlock st with
            | some b => b.header.index
            | none => 0),
          totalBlocksValidated := 0, rewardAddress := address, registeredAt := now }
      (true, { st with validators := mapSet st.validators address v })

/-- `processStakeTransaction(transaction)`: account update, then
`registerValidator(from, amount)` (its boolean result is discarded). -/
def processStakeTransaction (now : Nat) (st : BlockchainState) (tx : Transaction) :
    BlockchainState :=
  let (staker, m1) := getOrCreateAccount st.accounts tx.fromA
  let staker2 := { staker with
    balance := staker.balance - (tx.amount + tx.fee)
    stake := staker.stake + tx.amount
    nonce := staker.nonce + 1 }
  let st2 := { st with accounts := mapSet m1 tx.fromA staker2 }
  (registerValidator now st2 tx.fromA tx.amount).2

/-- `processUnstakeTransaction(transaction)`: account update, then the
validator record (if registered) loses `amount` stake and is deactivated when
its stake drops below `minStake`. -/
def processUnstakeTransaction (st : BlockchainState) (tx : Transaction) :
    BlockchainState :=
  let (staker, m1) := getOrCreateAccount st.accounts tx.fromA
  let staker2 := { staker with
    balance := staker.balance - tx.fee + tx.amount
    stake := staker.stake - tx.amount
    nonce := staker.nonce + 1 }
  let st2 := { st with accounts := mapSet m1 tx.fromA staker2 }
  match mapGet st2.validators tx.fromA with
  | none => st2
  | some validator =>
    let v2 := { validator with stake := validator.stake - tx.amount }
    let v3 := if v2.stake < st.chainParams.minStake then { v2 with isActive := false } else v2
    { st2 with validators := mapSet st2.validators tx.fromA v3 }

/-- `processTransaction(transaction)`: dispatch on the transaction type;
contract types are not handled. -/
def processTransaction (now : Nat) (st : BlockchainState) (tx : Transaction) :
    BlockchainState :=
  match tx.txType with
  | TransactionType.REGULAR => { st with accounts := processRegularTransaction st.accounts tx }
  | TransactionType.REWARD => { st with accounts := processRewardTransaction st.accounts tx }
  | TransactionType.STAKE => processStakeTransaction now st tx
  | TransactionType.UNSTAKE => processUnstakeTransaction st tx
  | _ => st

/-- `processBlockTransactions(block)`: evict the block's transactions from
the pending pool, then process each in order. -/
def processBlockTransactions (now : Nat) (st : BlockchainState) (block : Block) :
    BlockchainState :=
  let txIds := block.transactions.map (·.id)
  let st2 := { st with pendingTransactions :=
    st.pendingTransactions.filter (fun tx => ¬ txIds.contains tx.id) }
  block.transactions.foldl (processTransaction now) st2

/-- `addBlock(block)`: validate, append, process transactions, bump the
proposer's validator statistics. -/
def addBlock (M : HashModel) (now : Nat) (st : BlockchainState) (block : Block) :
    Bool × BlockchainState :=
  if ¬ isValidBlock M st block then (false, st)
  else
    let st1 := { st with chain := st.chain ++ [block] }
    let st2 := processBlockTransactions now st1 block
    let st3 :=
      match mapGet st2.validators block.header.validator with
      | some validator =>
        let v2 := { validator with
          lastBlockValidated := block.header.index
          totalBlocksValidated := validator.totalBlocksValidated + 1 }
        { st2 with validators := mapSet st2.validators block.header.validator v2 }
      | none => st2
    (true, st3)

/-- `addTransaction(transaction)`: validate, then push onto the pending pool. -/
def addTransaction (st : BlockchainState) (tx : Transaction) :
    Bool × BlockchainState :=
  if ¬ isValidTransaction st tx then (false, st)
  else (true, { st with pendingTransactions := st.pendingTransactions ++ [tx] })

/-- The reward transaction synthesized by `addValidatorReward`. -/
def rewardTransaction (now : Nat) (params : ChainParams) (validatorAddress : String) :
    Transaction :=
  { id := "reward-" ++ toString now ++ "-" ++ validatorAddress,
    txType := TransactionType.REWARD, fromA := "NETWORK", toA := validatorAddress,
    amount := params.blockReward, fee := 0, timestamp := now,
    signature := "NETWORK_REWARD", dataF := none, nonce := 0 }

/-- `addValidatorReward(validatorAddress)`: push the synthesized reward onto
the pending pool. -/
def addValidatorReward (now : Nat) (st : BlockchainState) (validatorAddress : String) :
    BlockchainState :=
  { st with pendingTransactions :=
      st.pendingTransactions ++ [rewardTransaction now st.chainParams validatorAddress] }

/-- `getAddressBalance(address)`. -/
def getAddressBalance (st : BlockchainState) (address : String) : Rat :=
  match mapGet st.accounts address with
  | some account => account.balance
  | none => 0

/-- `getAddressStake(address)`. -/
def getAddressStake (st : BlockchainState) (address : String) : Rat :=
  match mapGet st.accounts address with
  | some account => account.stake
  | none => 0

/-- The `for (const validator of activeValidators)` loop inside
`selectValidator`: accumulate stake and return the first validator whose
cumulative stake reaches `randomPoint`. -/
def selectLoop (randomPoint : Rat) : Rat → List Validator → Option String
  | _, [] => none
  | cumulativeStake, v :: rest =>
    let c := cumulativeStake + v.stake
    if randomPoint ≤ c then some v.address else selectLoop randomPoint c rest

/-- `selectValidator()`: stake-weighted choice among active validators.  The
source draws `Math.random()` fresh on every call; that draw is the explicit
argument `r`.  `none` models the `"No active validators available"` throw. -/
def selectValidator (st : BlockchainState) (r : Rat) : Option String :=
  let activeValidators := (mapValues st.validators).filter (·.isActive)
  match activeValidators with
  | [] => none
  | v0 :: _ =>
    let totalStake := activeValidators.foldl (fun sum v => sum + v.stake) 0
    let randomPoint := r * totalStake
    match selectLoop randomPoint 0 activeValidators with
    | some address => some address
    | none => some v0.address

/-! ## Keystore encryption (src/backend/crypto/keys.ts)

`encryptPrivateKey` / `decryptPrivateKey` use scrypt key derivation and
AES-256-CTR.  CTR mode is a stream cipher: encryption and decryption are both
XOR against the keystream `AES-CTR(key, iv)`, and decryption cannot fail --
there is no authentication tag.  Byte strings are `List Nat`; the scrypt KDF
and the AES keystream are external primitives gathered in
`CryptoPrimitives`.  The hex-string layer of the source (`Buffer.from(s,
"hex")` / `.toString("hex")`) is a bijection on byte strings and is elided. -/

/-- `kdfparams` of a keystore record. -/
structure KdfParams where
  dklen : Nat
  salt : List Nat
  n : Nat
  r : Nat
  p : Nat
deriving DecidableEq, Repr

/-- `KeystoreOptions`: KDF parameters, cipher id and IV. -/
structure KeystoreOptions where
  kdf : String
  kdfparams : KdfParams
  cipher : String
  iv : List Nat
deriving DecidableEq, Repr

/-- External crypto primitives: `scrypt password salt dkLen N r p` models the
node `scrypt` KDF, and `aesCtrKeystream key iv len` the first `len` bytes of
the AES-256-CTR keystream.  The length law is the only fact the embedding
needs about AES. -/
structure CryptoPrimitives where
  scrypt : String → List Nat → Nat → Nat → Nat → Nat → List Nat
  aesCtrKeystream : List Nat → List Nat → Nat → List Nat
  keystream_length : ∀ key iv len, (aesCtrKeystream key iv len).length = len

/-- Byte-wise XOR (CTR-mode encryption and decryption). -/
def xorBytes (a b : List Nat) : List Nat := List.zipWith Nat.xor a b

/-- `encryptPrivateKey(privateKey, password)`: the random salt and IV drawn
from `randomBytes` are explicit arguments; returns the ciphertext and the
keystore options recording salt, IV and KDF parameters. -/
def encryptPrivateKey (C : CryptoPrimitives) (privateKey : List Nat)
    (password : String) (salt iv : List Nat) : List Nat × KeystoreOptions :=
  let key := C.scrypt password salt 32 16384 8 1
  let encrypted := xorBytes privateKey (C.aesCtrKeystream key iv privateKey.length)
  (encrypted,
   { kdf := "scrypt",
     kdfparams := { dklen := 32, salt := salt, n := 16384, r := 8, p := 1 },
     cipher := "aes-256-ctr", iv := iv })

/-- `decryptPrivateKey(encryptedPrivateKey, password, options)`: re-derive the
key from the password and the stored salt, XOR against the keystream.  The
function is total: AES-256-CTR decryption has no integrity check, so a wrong
password yields a (wrong) byte string, never an error (the source's
`try/catch` only guards crypto-library faults, which CTR decryption with
well-formed parameters does not raise). -/
def decryptPrivateKey (C : CryptoPrimitives) (encryptedPrivateKey : List Nat)
    (password : String) (options : KeystoreOptions) : List Nat :=
  let key := C.scrypt password options.kdfparams.salt 32
    options.kdfparams.n options.kdfparams.r options.kdfparams.p
  xorBytes encryptedPrivateKey (C.aesCtrKeystream key options.iv encryptedPrivateKey.length)

/-! ## Wallet service (src/backend/wallet/wallet-service.ts) -/

/-- `TransactionRequest` (src/backend/types/wallet-types.ts). -/
structure TransactionRequest where
  fromA : String
  toA : String
  amount : Rat
  fee : Option Rat
  dataF : Option String
deriving DecidableEq, Repr

/-- `WalletService.createTransaction(request, password, type)`: builds the
unsigned record, then signs it.  `generateTransactionId`'s hash and
`signMessage` are the explicit arguments `idHash` and `sign`; `Date.now()` is
`now`.  The JS expression `request.fee || 0.001` maps `undefined` and `0` to
`0.001`.  The sender's sequence number is hard-coded: the source sets
`nonce: 0` with the comment "This should be fetched from the blockchain". -/
def createTransaction (idHash : String) (now : Nat) (sign : TxCore → String)
    (request : TransactionRequest)
    (txType : TransactionType := TransactionType.REGULAR) : Transaction :=
  let core : TxCore :=
    { id := idHash
      txType := txType
      fromA := request.fromA
      toA := request.toA
      amount := request.amount
      fee := match request.fee with
        | some f => if f = 0 then 1 / 1000 else f
        | none => 1 / 1000
      timestamp := now
      dataF := request.dataF
      nonce := 0 }
  core.withSignature (sign core)

/-! ## P2P service (src/backend/p2p/p2p-service.ts) -/

/-- `Peer` record (src/backend/types/node-types.ts). -/
structure Peer where
  id : String
  ip : String
  port : Nat
  lastSeen : Nat
  version : String
  capabilities : List String
deriving DecidableEq, Repr

/-- `MessageType` enum. -/
inductive MessageType where
  | HANDSHAKE
  | DISCONNECT
  | GET_PEERS
  | PEERS
  | GET_BLOCKS
  | BLOCKS
  | GET_TRANSACTIONS
  | TRANSACTIONS
  | NEW_BLOCK
  | NEW_TRANSACTION
deriving DecidableEq, Repr

/-- The fields of `NodeConfig` read by `handleHandshake`. -/
structure NodeConfig where
  networkId : String
  p2pPort : Nat
  maxPeers : Nat
deriving DecidableEq, Repr

/-- Payload of a `HANDSHAKE` message. -/
structure HandshakeData where
  nodeId : String
  version : String
  port : Nat
  networkId : String
deriving DecidableEq, Repr

/-- Observable outcome of `handleHandshake`: the updated peer table, the
messages sent back on the socket, and whether the socket was closed. -/
structure HandshakeEffect where
  peers : SMap Peer
  sentMessages : List MessageType
  socketClosed : Bool
deriving DecidableEq, Repr

/-- `handleHandshake(socket, message)`: a mismatched network id sends a
`DISCONNECT` (reason "Network ID mismatch"), closes the socket and returns
without touching the peer table; otherwise the peer is stored under its node
id and a `GET_PEERS` request is sent.  `socket.remoteAddress` and
`Date.now()` are the explicit arguments. -/
def handleHandshake (config : NodeConfig) (now : Nat)
    (socketRemoteAddress : Option String) (peers : SMap Peer)
    (msg : HandshakeData) : HandshakeEffect :=
  if msg.networkId ≠ config.networkId then
    { peers := peers, sentMessages := [MessageType.DISCONNECT], socketClosed := true }
  else
    let peer : Peer :=
      { id := msg.nodeId
        ip := socketRemoteAddress.getD "unknown"
        port := msg.port
        lastSeen := now
        version := msg.version
        capabilities := [] }
    { peers := mapSet peers msg.nodeId peer
      sentMessages := [MessageType.GET_PEERS]
      socketClosed := false }

/-- `getPeers()`: the peer infos in table order. -/
def getPeers (peers : SMap Peer) : List Peer := mapValues peers

/-! ## Concrete instances used by counterexamples and witnesses -/

/-- Executable stand-in for the hashing and serialisation primitives.
Any interpretation works for the universally quantified theorems; this one
makes counterexamples computable. -/
def Mc : HashModel :=
  { sha256hex := fun s => "#" ++ s
    encodeHeader := fun h => toString h.index ++ "|" ++ h.previousHash ++ "|" ++ h.merkleRoot
    encodeTxNoSig := fun c => c.id }

/-- Executable stand-in for the scrypt KDF and the AES-256-CTR keystream. -/
def Cc : CryptoPrimitives :=
  { scrypt := fun password _ _ _ _ _ => [password.length]
    aesCtrKeystream := fun key _ len => List.replicate len (key.headD 0)
    keystream_length := by intro key iv len; simp }

/-- Validator record used by concrete states. -/
def mkValidator (addr : String) (stake : Rat) : Validator :=
  { address := addr, stake := stake, isActive := true, lastBlockValidated := 0,
    totalBlocksValidated := 0, rewardAddress := addr, registeredAt := 0 }

/-- A concrete ledger state: genesis chain, one registered validator `"V"`,
one funded account `"A"` (balance 100, sequence 0). -/
def stC : BlockchainState :=
  { chain := [genesisBlock Mc nodeChainParams]
    pendingTransactions := []
    validators := [("V", mkValidator "V" 1000)]
    accounts := [("A", { address := "A", balance := 100, nonce := 0, stake := 0 })]
    chainParams := nodeChainParams }

/-- Concrete regular transfer `A → B`, amount 10, fee 1, sequence 0. -/
def txR1 : Transaction :=
  { id := "t1", txType := TransactionType.REGULAR, fromA := "A", toA := "B",
    amount := 10, fee := 1, timestamp := 0, signature := "s1", dataF := none, nonce := 0 }

/-- Same transfer with sequence 1 (the sender's next sequence number). -/
def txR2 : Transaction :=
  { id := "t2", txType := TransactionType.REGULAR, fromA := "A", toA := "B",
    amount := 10, fee := 1, timestamp := 0, signature := "s2", dataF := none, nonce := 1 }

/-- Block on top of genesis carrying `txR1` then `txR2` (consecutive
sequence numbers 0 and 1), with correct parent hash and Merkle root. -/
def blkSeq : Block :=
  { header := { index := 1
                previousHash := calculateBlockHash Mc (genesisBlock Mc nodeChainParams)
                timestamp := 1
                merkleRoot := calculateMerkleRoot Mc [txR1, txR2]
                validator := "V", nonce := 0 }
    transactions := [txR1, txR2]
    signature := "sig" }

/-- First of two conflicting transfers that each spend 60 out of `A`'s
balance of 100, both at sequence 0. -/
def txD1 : Transaction :=
  { id := "d1", txType := TransactionType.REGULAR, fromA := "A", toA := "B",
    amount := 60, fee := 0, timestamp := 0, signature := "s3", dataF := none, nonce := 0 }

/-- Second conflicting transfer, also at sequence 0. -/
def txD2 : Transaction :=
  { id := "d2", txType := TransactionType.REGULAR, fromA := "A", toA := "B",
    amount := 60, fee := 0, timestamp := 0, signature := "s4", dataF := none, nonce := 0 }

/-- Block carrying the two conflicting sequence-0 transfers. -/
def blkOverspend : Block :=
  { header := { index := 1
                previousHash := calculateBlockHash Mc (genesisBlock Mc nodeChainParams)
                timestamp := 1
                merkleRoot := calculateMerkleRoot Mc [txD1, txD2]
                validator := "V", nonce := 0 }
    transactions := [txD1, txD2]
    signature := "sig" }

/-- A block with a wrong height (fails the first validation check). -/
def blkBadIndex : Block :=
  { header := { index := 99, previousHash := "", timestamp := 1,
                merkleRoot := "", validator := "V", nonce := 0 }
    transactions := [], signature := "sig" }

/-- State where `"A"` holds balance 100 and stake 1500 and is a registered
validator with stake 1500. -/
def stU : BlockchainState :=
  { chain := [genesisBlock Mc nodeChainParams]
    pendingTransactions := []
    validators := [("A", mkValidator "A" 1500)]
    accounts := [("A", { address := "A", balance := 100, nonce := 0, stake := 1500 })]
    chainParams := nodeChainParams }

/-- Unstake transaction: `A` unstakes 600 with fee 1 at sequence 0. -/
def txU : Transaction :=
  { id := "u1", txType := TransactionType.UNSTAKE, fromA := "A", toA := "A",
    amount := 600, fee := 1, timestamp := 0, signature := "su", dataF := none, nonce := 0 }

/-- State with two equally staked active validators `"A"` and `"B"`. -/
def stTwoV : BlockchainState :=
  { chain := [genesisBlock Mc nodeChainParams]
    pendingTransactions := []
    validators := [("A", mkValidator "A" 1000), ("B", mkValidator "B" 1000)]
    accounts := []
    chainParams := nodeChainParams }

/-- A reward transaction whose sender is the lowercase string `"network"`
and whose signature is empty. -/
def txNetLower : Transaction :=
  { id := "r1", txType := TransactionType.REWARD, fromA := "network", toA := "V",
    amount := 5, fee := 0, timestamp := 0, signature := "", dataF := none, nonce := 0 }

/-- Concrete transaction request `A → B`. -/
def reqAB : TransactionRequest :=
  { fromA := "A", toA := "B", amount := 10, fee := some 1, dataF := none }

/-- Concrete handshake configuration (`networkId` `"aurum-mainnet"`). -/
def cfgMain : NodeConfig := { networkId := "aurum-mainnet", p2pPort := 30303, maxPeers := 25 }

/-- Handshake message from a peer on network `"other"`. -/
def hsOther : HandshakeData :=
  { nodeId := "peer1", version := "0.1.0", port := 30304, networkId := "other" }

/-- Handshake message from a peer on the matching network. -/
def hsMain : HandshakeData :=
  { nodeId := "peer1", version := "0.1.0", port := 30304, networkId := "aurum-mainnet" }

/-! ## Lemmas about the JS map embedding -/

theorem mapGet_mapSet_self {α : Type} (m : SMap α) (k : String) (v : α) :
    mapGet (mapSet m k v) k = some v := by
  induction m with
  | nil => simp [mapSet, mapGet]
  | cons hd tl ih =>
    obtain ⟨k2, v2⟩ := hd
    by_cases h : k2 = k <;> simp [mapSet, mapGet, h, ih]

theorem mapGet_mapSet_ne {α : Type} {k k' : String} (h : k ≠ k') (m : SMap α)
    (v : α) : mapGet (mapSet m k v) k' = mapGet m k' := by
  induction m with
  | nil => simp [mapSet, mapGet, h]
  | cons hd tl ih =>
    obtain ⟨k2, v2⟩ := hd
    by_cases h2 : k2 = k
    · subst h2
      simp [mapSet, mapGet, h]
    · simp [mapSet, mapGet, h2, ih]

/-! ## Lemmas about the Merkle tree -/

theorem levelUp_length (sha : String → String) (l : List String) :
    (levelUp sha l).length = (l.length + 1) / 2 := by
  induction l using levelUp.induct sha with
  | case1 => simp [levelUp]
  | case2 x => simp [levelUp]
  | case3 x y rest ih =>
    simp only [levelUp, List.length_cons, ih]
    omega

theorem levelUp_ne_nil (sha : String → String) (l : List String) (h : l ≠ []) :
    levelUp sha l ≠ [] := by
  intro hc
  have h1 := levelUp_length sha l
  rw [hc] at h1
  cases l with
  | nil => exact h rfl
  | cons a t => simp at h1; omega

theorem getLast?_cons_of_ne_nil {α : Type} (a : α) (l : List α) (h : l ≠ []) :
    (a :: l).getLast? = l.getLast? := by
  cases l with
  | nil => exact absurd rfl h
  | cons b t => simp [List.getLast?_cons_cons]

theorem buildMerkleTree_step (sha : String → String) (x y : String)
    (rest : List String) :
    buildMerkleTree sha (x :: y :: rest)
      = buildMerkleTree sha (levelUp sha (x :: y :: rest)) := by
  rw [buildMerkleTree]

theorem levelUp_getLast_of_odd (sha : String → String) (l : List String)
    (x : String) (hodd : Odd l.length) (hlast : l.getLast? = some x) :
    (levelUp sha l).getLast? = some (hashPair sha x x) := by
  induction l using levelUp.induct sha with
  | case1 => simp at hlast
  | case2 y =>
    simp [List.getLast?] at hlast
    subst hlast
    simp [levelUp]
  | case3 y z rest ih =>
    have hne : rest ≠ [] := by
      intro hc
      subst hc
      simp [Nat.odd_iff] at hodd
    have hodd2 : Odd rest.length := by
      simp only [List.length_cons, Nat.odd_iff] at hodd ⊢
      omega
    have hlast2 : rest.getLast? = some x := by
      rwa [List.getLast?_cons_cons, getLast?_cons_of_ne_nil z rest hne] at hlast
    show (hashPair sha y z :: levelUp sha rest).getLast? = _
    rw [getLast?_cons_of_ne_nil _ _ (levelUp_ne_nil sha rest hne)]
    exact ih hodd2 hlast2

/-! ## Lemmas about CTR-mode XOR -/

theorem xorBytes_length (a b : List Nat) :
    (xorBytes a b).length = min a.length b.length := by
  simp [xorBytes]

theorem xorBytes_xorBytes_cancel (p ks : List Nat) (h : p.length ≤ ks.length) :
    xorBytes (xorBytes p ks) ks = p := by
  induction p generalizing ks with
  | nil => simp [xorBytes]
  | cons a t ih =>
    cases ks with
    | nil => simp at h
    | cons k kt =>
      simp only [List.length_cons] at h
      simp only [xorBytes, List.zipWith_cons_cons]
      refine congrArg₂ List.cons ?_ ?_
      · exact Nat.xor_cancel_right k a
      · exact ih kt (by omega)

/-! ## Helper lemmas about validation and processing -/

theorem addBlock_eq_of_invalid (M : HashModel) (now : Nat) (st : BlockchainState)
    (b : Block) (h : isValidBlock M st b = false) :
    addBlock M now st b = (false, st) := by
  simp [addBlock, h]

theorem addBlock_fst_true_iff (M : HashModel) (now : Nat) (st : BlockchainState)
    (b : Block) : (addBlock M now st b).1 = true ↔ isValidBlock M st b = true := by
  unfold addBlock
  split
  · next h => simp_all
  · next h => simp_all

theorem isValidBlock_transactions (M : HashModel) (st : BlockchainState) (b : Block)
    (h : isValidBlock M st b = true) :
    ∀ tx ∈ b.transactions, isValidTransaction st tx = true := by
  unfold isValidBlock at h
  rcases hlb : getLatestBlock st with _ | prev
  · rw [hlb] at h; cases h
  · rw [hlb] at h
    repeat' split at h
    any_goals cases h
    simpa [List.all_eq_true] using h

theorem isValidBlock_false_of_tx_invalid (M : HashModel) (st : BlockchainState)
    (b : Block) (tx : Transaction) (hmem : tx ∈ b.transactions)
    (hinv : isValidTransaction st tx = false) : isValidBlock M st b = false := by
  by_contra hc
  rw [Bool.not_eq_false] at hc
  have := isValidBlock_transactions M st b hc tx hmem
  rw [hinv] at this
  cases this

theorem isValidTransaction_false_of_nonce_ne (st : BlockchainState)
    (tx : Transaction) (a : Account)
    (hex : ¬ (tx.txType = TransactionType.REWARD ∧ tx.fromA = "NETWORK"))
    (ha : mapGet st.accounts tx.fromA = some a)
    (hn : tx.nonce ≠ a.nonce) : isValidTransaction st tx = false := by
  simp only [isValidTransaction, if_neg hex, ha]
  split
  · rfl
  · split
    · rfl
    · exact decide_eq_false hn



/-! ## Claim theorems -/

set_option maxRecDepth 8000

/-- C10: rejection is atomic.  If `addBlock` returns `false` the whole state
(chain, accounts, validators, pending pool, parameters) is unchanged, and if
`addTransaction` returns `false` the pending pool (indeed the whole state) is
unchanged. -/
theorem rejected_inputs_leave_state_unchanged (M : HashModel) (now : Nat)
    (st : BlockchainState) (b : Block) (tx : Transaction) :
    ((addBlock M now st b).1 = false → (addBlock M now st b).2 = st) ∧
    ((addTransaction st tx).1 = false → (addTransaction st tx).2 = st) := by
  constructor
  · intro h
    by_cases hv : isValidBlock M st b = true
    · simp [addBlock, hv] at h
    · rw [Bool.not_eq_true] at hv
      rw [addBlock_eq_of_invalid M now st b hv]
  · intro h
    by_cases hv : isValidTransaction st tx = true
    · simp [addTransaction, hv] at h
    · rw [Bool.not_eq_true] at hv
      simp [addTransaction, hv]

/-- C10 witness: a block with a wrong height and a transaction with a wrong
sequence number are rejected and leave the concrete state `stC` unchanged. -/
theorem rejected_inputs_leave_state_unchanged_witness :
    (addBlock Mc 0 stC blkBadIndex).2 = stC ∧ (addTransaction stC txR2).2 = stC := by
  refine ⟨(rejected_inputs_leave_state_unchanged Mc 0 stC blkBadIndex txR2).1 ?_,
          (rejected_inputs_leave_state_unchanged Mc 0 stC blkBadIndex txR2).2 ?_⟩
  · simp [addBlock, isValidBlock, getLatestBlock, stC, blkBadIndex, genesisBlock,
      calculateBlockHash, Mc, zeros64, verifyBlockSignature, mapGet, mkValidator]
  · simp [addTransaction, isValidTransaction, verifyTransactionSignature, stC, txR2,
      mapGet, nodeChainParams]

/-- C2: the claim says proposer election is a deterministic function of the
validator set and the prior block's header hash.  In the source,
`selectValidator` reads only the validator registry and a fresh
`Math.random()` draw; the prior header is not an input at all, and two calls
on the identical state with different draws return different proposers: on
two equally staked validators, draw 0 elects `"A"` while draw 3/4 elects
`"B"`. -/
theorem selectValidator_same_state_different_draws :
    selectValidator stTwoV 0 = some "A" ∧ selectValidator stTwoV (3 / 4) = some "B" := by
  constructor
  · simp [selectValidator, selectLoop, stTwoV, mapValues, mkValidator]
  · simp [selectValidator, selectLoop, stTwoV, mapValues, mkValidator]
    norm_num

/-- C8: `WalletService.createTransaction` hard-codes the sequence number:
every transaction it builds carries `nonce = 0` regardless of the sender's
ledger sequence, so whenever the sender's account sequence is positive the
built transaction is rejected by `isValidTransaction`. -/
theorem createTransaction_nonce_always_zero
    (idHash : String) (now : Nat) (sign : TxCore → String)
    (request : TransactionRequest) (ty : TransactionType)
    (st : BlockchainState) (a : Account)
    (hacc : mapGet st.accounts request.fromA = some a)
    (hpos : 0 < a.nonce) :
    (createTransaction idHash now sign request ty).nonce = 0 ∧
    isValidTransaction st (createTransaction idHash now sign request) = false := by
  constructor
  · rfl
  · refine isValidTransaction_false_of_nonce_ne st _ a ?_ hacc ?_
    · rintro ⟨h1, -⟩
      exact absurd h1 (by simp [createTransaction, TxCore.withSignature])
    · show (0 : Nat) ≠ a.nonce
      omega

/-- C8 witness: for a sender whose ledger sequence is 1 (one confirmed
transaction), the wallet-built transaction carries sequence 0 and is
rejected. -/
theorem createTransaction_nonce_always_zero_witness :
    (createTransaction "id1" 0 (fun _ => "sg") reqAB TransactionType.REGULAR).nonce = 0 ∧
    isValidTransaction
      { chain := [genesisBlock Mc nodeChainParams]
        pendingTransactions := []
        validators := []
        accounts := [("A", { address := "A", balance := 100, nonce := 1, stake := 0 })]
        chainParams := nodeChainParams }
      (createTransaction "id1" 0 (fun _ => "sg") reqAB) = false :=
  createTransaction_nonce_always_zero "id1" 0 (fun _ => "sg") reqAB
    TransactionType.REGULAR _
    { address := "A", balance := 100, nonce := 1, stake := 0 } rfl (by decide)

/-- C6 counterexample: the claim's sentinel sender is the lowercase string
`"network"`, but the code compares against `"NETWORK"`: a reward transaction
from `"network"` with an empty signature is NOT exempt and is rejected by
`isValidTransaction` (and `verifyTransactionSignature`), contradicting the
claim that it is accepted without any signature verification. -/
theorem reward_lowercase_network_not_exempt_cex :
    txNetLower.txType = TransactionType.REWARD ∧ txNetLower.fromA = "network" ∧
    verifyTransactionSignature txNetLower = false ∧
    isValidTransaction stC txNetLower = false := by
  refine ⟨rfl, rfl, ?_, ?_⟩
  · simp [verifyTransactionSignature, txNetLower]
  · simp [isValidTransaction, verifyTransactionSignature, txNetLower, stC, mapGet]

/-- C6 (amended): the sentinel is the uppercase string `"NETWORK"`: every
reward transaction with sender `"NETWORK"` passes both
`verifyTransactionSignature` and `isValidTransaction` with no signature
requirement (in particular the ledger-synthesized reward does), while every
non-reward transaction must carry a non-empty signature to be accepted. -/
theorem reward_NETWORK_exemption (st : BlockchainState) (tx : Transaction)
    (now : Nat) (params : ChainParams) (addr : String) :
    (tx.txType = TransactionType.REWARD → tx.fromA = "NETWORK" →
      verifyTransactionSignature tx = true ∧ isValidTransaction st tx = true) ∧
    (tx.txType ≠ TransactionType.REWARD → isValidTransaction st tx = true →
      tx.signature ≠ "") ∧
    ((rewardTransaction now params addr).fromA = "NETWORK" ∧
      isValidTransaction st (rewardTransaction now params addr) = true) := by
  refine ⟨?_, ?_, rfl, ?_⟩
  · intro h1 h2
    constructor
    · simp [verifyTransactionSignature, h1, h2]
    · simp [isValidTransaction, h1, h2]
  · intro hty hv hs
    have hex : ¬ (tx.txType = TransactionType.REWARD ∧ tx.fromA = "NETWORK") := by
      rintro ⟨h1, -⟩; exact hty h1
    rw [isValidTransaction, if_neg hex] at hv
    split at hv
    · cases hv
    · next hns =>
      rw [Decidable.not_not] at hns
      rw [verifyTransactionSignature, if_neg hex] at hns
      simp [hs] at hns
  · simp [isValidTransaction, rewardTransaction]

/-- C6 witness: the exemption at a concrete reward transaction from
`"NETWORK"`, and the signature requirement at a concrete regular
transaction. -/
theorem reward_NETWORK_exemption_witness :
    (verifyTransactionSignature (rewardTransaction 7 nodeChainParams "V") = true ∧
      isValidTransaction stC (rewardTransaction 7 nodeChainParams "V") = true) ∧
    txR1.signature ≠ "" := by
  constructor
  · exact (reward_NETWORK_exemption stC (rewardTransaction 7 nodeChainParams "V")
      7 nodeChainParams "V").1 rfl rfl
  · exact (reward_NETWORK_exemption stC txR1 7 nodeChainParams "V").2.1
      (by simp [txR1]) (by simp [isValidTransaction, verifyTransactionSignature,
        stC, txR1, mapGet, nodeChainParams]; norm_num)

/-- C9: `handleHandshake` terminates a session whose handshake carries a
different `networkId` -- it sends `DISCONNECT`, closes the socket and leaves
the peer table unchanged (so a previously absent peer is still absent) --
while a matching `networkId` stores the peer in the table. -/
theorem handleHandshake_networkId_gate (config : NodeConfig) (now : Nat)
    (addr : Option String) (peers : SMap Peer) (msg : HandshakeData) :
    (msg.networkId ≠ config.networkId →
      (handleHandshake config now addr peers msg).socketClosed = true ∧
      (handleHandshake config now addr peers msg).sentMessages
        = [MessageType.DISCONNECT] ∧
      (handleHandshake config now addr peers msg).peers = peers) ∧
    (msg.networkId ≠ config.networkId → mapGet peers msg.nodeId = none →
      mapGet (handleHandshake config now addr peers msg).peers msg.nodeId = none) ∧
    (msg.networkId = config.networkId →
      mapGet (handleHandshake config now addr peers msg).peers msg.nodeId =
        some { id := msg.nodeId, ip := addr.getD "unknown", port := msg.port,
               lastSeen := now, version := msg.version, capabilities := [] }) := by
  refine ⟨?_, ?_, ?_⟩
  · intro hne
    simp [handleHandshake, hne]
  · intro hne habs
    simp [handleHandshake, hne, habs]
  · intro heq
    simp [handleHandshake, heq, mapGet_mapSet_self]

/-- C9 witness: with local network id `"aurum-mainnet"`, a handshake from
network `"other"` is disconnected and the peer table stays empty; the same
peer handshaking with the matching id is stored. -/
theorem handleHandshake_networkId_gate_witness :
    ((handleHandshake cfgMain 5 (some "1.2.3.4") [] hsOther).socketClosed = true ∧
      (handleHandshake cfgMain 5 (some "1.2.3.4") [] hsOther).sentMessages
        = [MessageType.DISCONNECT] ∧
      (handleHandshake cfgMain 5 (some "1.2.3.4") [] hsOther).peers = []) ∧
    mapGet (handleHandshake cfgMain 5 (some "1.2.3.4") [] hsOther).peers "peer1" = none ∧
    mapGet (handleHandshake cfgMain 5 (some "1.2.3.4") [] hsMain).peers "peer1" =
      some { id := "peer1", ip := "1.2.3.4", port := 30304, lastSeen := 5,
             version := "0.1.0", capabilities := [] } := by
  refine ⟨(handleHandshake_networkId_gate cfgMain 5 (some "1.2.3.4") [] hsOther).1
      (by decide), ?_, ?_⟩
  · exact (handleHandshake_networkId_gate cfgMain 5 (some "1.2.3.4") [] hsOther).2.1
      (by decide) rfl
  · exact (handleHandshake_networkId_gate cfgMain 5 (some "1.2.3.4") [] hsMain).2.2 rfl


/-- C3: for a Transfer (`REGULAR`) transaction with distinct sender and
recipient, validation requires the sender's pre-state balance to cover
`amount + fee`, and processing decreases the sender's balance by exactly
`amount + fee`, increases the recipient's balance by exactly `amount`, and
increments the sender's sequence counter by one. -/
theorem regular_transfer_validation_and_effect
    (now : Nat) (st : BlockchainState) (tx : Transaction) (sender : Account)
    (hty : tx.txType = TransactionType.REGULAR)
    (hne : tx.fromA ≠ tx.toA)
    (hs : mapGet st.accounts tx.fromA = some sender) :
    (isValidTransaction st tx = true → tx.amount + tx.fee ≤ sender.balance) ∧
    getAddressBalance (processTransaction now st tx) tx.fromA
      = getAddressBalance st tx.fromA - (tx.amount + tx.fee) ∧
    getAddressBalance (processTransaction now st tx) tx.toA
      = getAddressBalance st tx.toA + tx.amount ∧
    (∃ s2, mapGet (processTransaction now st tx).accounts tx.fromA = some s2 ∧
      s2.nonce = sender.nonce + 1) := by
  have hne2 : tx.toA ≠ tx.fromA := Ne.symm hne
  have hproc : (processTransaction now st tx).accounts
      = processRegularTransaction st.accounts tx := by
    simp [processTransaction, hty]
  refine ⟨?_, ?_, ?_, ?_⟩
  · intro h
    by_cases hB : sender.balance < tx.amount + tx.fee
    · exfalso
      simp [isValidTransaction, hty, hs, hB] at h
    · exact le_of_not_lt hB
  · rcases hto : mapGet st.accounts tx.toA with _ | r <;>
      simp [getAddressBalance, hproc, processRegularTransaction, getOrCreateAccount,
        hs, hto, hne, mapGet_mapSet_self, mapGet_mapSet_ne hne, mapGet_mapSet_ne hne2]
  · rcases hto : mapGet st.accounts tx.toA with _ | r <;>
      simp [getAddressBalance, hproc, processRegularTransaction, getOrCreateAccount,
        hs, hto, hne, mapGet_mapSet_self, mapGet_mapSet_ne hne, mapGet_mapSet_ne hne2]
  · rcases hto : mapGet st.accounts tx.toA with _ | r <;>
    · refine ⟨{ sender with
          balance := sender.balance - (tx.amount + tx.fee)
          nonce := sender.nonce + 1 }, ?_, rfl⟩
      simp [hproc, processRegularTransaction, getOrCreateAccount, hs, hto, hne,
        mapGet_mapSet_self, mapGet_mapSet_ne hne, mapGet_mapSet_ne hne2]

/-- C3 witness: the concrete transfer `txR1` (`A` sends 10 with fee 1 to `B`)
on the state `stC` where `A` holds 100 at sequence 0. -/
theorem regular_transfer_validation_and_effect_witness :
    (isValidTransaction stC txR1 = true → txR1.amount + txR1.fee ≤ (100 : Rat)) ∧
    getAddressBalance (processTransaction 0 stC txR1) "A"
      = getAddressBalance stC "A" - (txR1.amount + txR1.fee) ∧
    getAddressBalance (processTransaction 0 stC txR1) "B"
      = getAddressBalance stC "B" + txR1.amount ∧
    (∃ s2, mapGet (processTransaction 0 stC txR1).accounts "A" = some s2 ∧
      s2.nonce = 0 + 1) :=
  regular_transfer_validation_and_effect 0 stC txR1
    { address := "A", balance := 100, nonce := 0, stake := 0 }
    rfl (by decide) rfl

/-- C5: for an Unstake transaction, validation requires the sender's staked
amount to cover `amount` and the balance to cover `fee`; processing adds
`amount - fee` to the balance, removes `amount` from the stake, increments
the sequence counter, and when the sender is a registered validator whose
stake falls below `minStake` (1000 in the node's chain parameters) the
validator record is deactivated. -/
theorem unstake_validation_and_effect
    (st : BlockchainState) (tx : Transaction) (sender : Account)
    (hty : tx.txType = TransactionType.UNSTAKE)
    (hs : mapGet st.accounts tx.fromA = some sender) :
    (isValidTransaction st tx = true →
      tx.amount ≤ sender.stake ∧ tx.fee ≤ sender.balance) ∧
    (∃ s2, mapGet (processUnstakeTransaction st tx).accounts tx.fromA = some s2 ∧
      s2.balance = sender.balance + (tx.amount - tx.fee) ∧
      s2.stake = sender.stake - tx.amount ∧
      s2.nonce = sender.nonce + 1) ∧
    (∀ v, mapGet st.validators tx.fromA = some v →
      v.stake - tx.amount < st.chainParams.minStake →
      ∃ v2, mapGet (processUnstakeTransaction st tx).validators tx.fromA = some v2 ∧
        v2.stake = v.stake - tx.amount ∧ v2.isActive = false) := by
  refine ⟨?_, ?_, ?_⟩
  · intro h
    constructor
    · by_cases hS : sender.stake < tx.amount
      · exfalso
        simp [isValidTransaction, hty, hs, hS] at h
      · exact le_of_not_lt hS
    · by_cases hF : sender.balance < tx.fee
      · exfalso
        simp [isValidTransaction, hty, hs, hF] at h
      · exact le_of_not_lt hF
  · rcases hv : mapGet st.validators tx.fromA with _ | v <;>
    · refine ⟨{ sender with
          balance := sender.balance - tx.fee + tx.amount
          stake := sender.stake - tx.amount
          nonce := sender.nonce + 1 }, ?_, by ring, rfl, rfl⟩
      simp [processUnstakeTransaction, getOrCreateAccount, hs, hv, mapGet_mapSet_self]
  · intro v hv hlow
    refine ⟨{ v with stake := v.stake - tx.amount, isActive := false }, ?_, rfl, rfl⟩
    simp [processUnstakeTransaction, getOrCreateAccount, hs, hv,
      mapGet_mapSet_self, hlow]

/-- C5 witness: `A` holds balance 100 and stake 1500 and unstakes 600 with
fee 1; the registered validator record for `A` with stake 1500 drops to 900,
below the node `minStake` of 1000, and is deactivated. -/
theorem unstake_validation_and_effect_witness :
    (∃ s2, mapGet (processUnstakeTransaction stU txU).accounts "A" = some s2 ∧
      s2.balance = 100 + ((600 : Rat) - 1) ∧
      s2.stake = (1500 : Rat) - 600 ∧
      s2.nonce = 0 + 1) ∧
    (∃ v2, mapGet (processUnstakeTransaction stU txU).validators "A" = some v2 ∧
      v2.stake = (1500 : Rat) - 600 ∧ v2.isActive = false) := by
  refine ⟨(unstake_validation_and_effect stU txU
      { address := "A", balance := 100, nonce := 0, stake := 1500 } rfl rfl).2.1,
    (unstake_validation_and_effect stU txU
      { address := "A", balance := 100, nonce := 0, stake := 1500 } rfl rfl).2.2
      (mkValidator "A" 1500) rfl ?_⟩
  show (1500 : Rat) - 600 < stU.chainParams.minStake
  norm_num [stU, nodeChainParams]


/-- C4: `calculateMerkleRoot` returns the 64-character all-zero string on the
empty list and the transaction's leaf hash (SHA-256 of the signature-less
canonical encoding) on a singleton; the tree is built by iterating the
level-collapsing pass, and at any level of odd length the last node is hashed
against a copy of itself. -/
theorem calculateMerkleRoot_empty_single_odd (M : HashModel) :
    calculateMerkleRoot M [] = zeros64 ∧
    (∀ tx, calculateMerkleRoot M [tx] = calculateTransactionHash M tx) ∧
    (∀ leaves : List String, 2 ≤ leaves.length →
      buildMerkleTree M.sha256hex leaves
        = buildMerkleTree M.sha256hex (levelUp M.sha256hex leaves)) ∧
    (∀ (leaves : List String) (x : String), Odd leaves.length →
      leaves.getLast? = some x →
      (levelUp M.sha256hex leaves).getLast? = some (hashPair M.sha256hex x x)) := by
  refine ⟨?_, ?_, ?_, ?_⟩
  · simp [calculateMerkleRoot]
  · intro tx
    simp [calculateMerkleRoot, buildMerkleTree]
  · intro leaves h2
    match leaves, h2 with
    | [], h2 => simp at h2
    | [x], h2 => simp at h2
    | x :: y :: rest, _ => exact buildMerkleTree_step M.sha256hex x y rest
  · intro leaves x hodd hlast
    exact levelUp_getLast_of_odd M.sha256hex leaves x hodd hlast

/-- C4 witness: a three-leaf level steps through `levelUp`, and its last
node `"c"` is paired with itself. -/
theorem calculateMerkleRoot_empty_single_odd_witness :
    buildMerkleTree Mc.sha256hex ["a", "b", "c"]
      = buildMerkleTree Mc.sha256hex (levelUp Mc.sha256hex ["a", "b", "c"]) ∧
    (levelUp Mc.sha256hex ["a", "b", "c"]).getLast?
      = some (hashPair Mc.sha256hex "c" "c") :=
  ⟨(calculateMerkleRoot_empty_single_odd Mc).2.2.1 ["a", "b", "c"] (by decide),
   (calculateMerkleRoot_empty_single_odd Mc).2.2.2 ["a", "b", "c"] "c" ⟨1, rfl⟩ rfl⟩

/-- C7 (amended): the keystore round-trip with the correct password returns
the private key, but decryption with any password (wrong ones included)
terminates normally with a byte string of the plaintext's length: AES-256-CTR
has no authentication, so a wrong password is NOT reported as an
`InvalidCredential` error -- it silently yields a wrong key. -/
theorem keystore_ctr_roundtrip_and_totality (C : CryptoPrimitives)
    (privateKey : List Nat) (password : String) (salt iv : List Nat) :
    decryptPrivateKey C (encryptPrivateKey C privateKey password salt iv).1 password
      (encryptPrivateKey C privateKey password salt iv).2 = privateKey ∧
    ∀ wrongPassword : String,
      (decryptPrivateKey C (encryptPrivateKey C privateKey password salt iv).1
        wrongPassword (encryptPrivateKey C privateKey password salt iv).2).length
        = privateKey.length := by
  constructor
  · simp only [encryptPrivateKey, decryptPrivateKey, xorBytes_length,
      C.keystream_length, min_self]
    exact xorBytes_xorBytes_cancel _ _ (le_of_eq (C.keystream_length _ _ _).symm)
  · intro wrongPassword
    simp [encryptPrivateKey, decryptPrivateKey, xorBytes_length, C.keystream_length]

/-- C7 counterexample: with the executable crypto stand-in, encrypting the
byte string `[5]` under password `"a"` and decrypting under the wrong
password `"bb"` succeeds and returns the byte string `[6]` -- a normally
returned (wrong) value, not an `InvalidCredential` error, and not the
original key. -/
theorem decrypt_wrong_password_returns_value_cex :
    ("bb" : String) ≠ "a" ∧
    decryptPrivateKey Cc (encryptPrivateKey Cc [5] "a" [] []).1 "bb"
      (encryptPrivateKey Cc [5] "a" [] []).2 = [6] ∧
    ([6] : List Nat) ≠ [5] := by
  refine ⟨by decide, by decide, by decide⟩

/-- C1 (amended): `isValidBlock` validates every embedded transaction with
`isValidTransaction` against the same pre-block state (the state after the
previous block), with no sequential application of preceding transactions.
Consequently a block whose later transaction carries any sequence number
other than the sender's pre-block sequence -- in particular the consecutive
sequence n+1 -- is rejected. -/
theorem block_validation_against_preblock_state
    (M : HashModel) (now : Nat) (st : BlockchainState) (b : Block) :
    ((addBlock M now st b).1 = true →
      ∀ tx ∈ b.transactions, isValidTransaction st tx = true) ∧
    (∀ tx ∈ b.transactions,
      ¬ (tx.txType = TransactionType.REWARD ∧ tx.fromA = "NETWORK") →
      ∀ a, mapGet st.accounts tx.fromA = some a → tx.nonce ≠ a.nonce →
        (addBlock M now st b).1 = false) := by
  constructor
  · intro h
    exact isValidBlock_transactions M st b ((addBlock_fst_true_iff M now st b).1 h)
  · intro tx hmem hex a ha hn
    have hinv := isValidTransaction_false_of_nonce_ne st tx a hex ha hn
    have hblk := isValidBlock_false_of_tx_invalid M st b tx hmem hinv
    rw [addBlock_eq_of_invalid M now st b hblk]

/-- C1 counterexample: on the state `stC` (`A` holds 100 at sequence 0, `V`
is a registered validator), the well-formed block `blkSeq` carrying two
transfers from `A` with consecutive sequence numbers 0 and 1 is REJECTED by
`addBlock`, while the block `blkOverspend` carrying two sequence-0 transfers
of 60 each is ACCEPTED and leaves `A` with the negative balance -20. -/
theorem addBlock_preblock_validation_cex :
    (addBlock Mc 0 stC blkSeq).1 = false ∧
    (addBlock Mc 0 stC blkOverspend).1 = true ∧
    getAddressBalance (addBlock Mc 0 stC blkOverspend).2 "A" < 0 := by
  refine ⟨?_, ?_, ?_⟩
  · simp [addBlock, isValidBlock, getLatestBlock, stC, blkSeq, verifyBlockSignature,
      isValidTransaction, verifyTransactionSignature, mapGet, nodeChainParams, txR1, txR2]
    try norm_num
  · simp [addBlock, isValidBlock, getLatestBlock, stC, blkOverspend, verifyBlockSignature,
      isValidTransaction, verifyTransactionSignature, mapGet, nodeChainParams, txD1, txD2,
      genesisBlock, calculateBlockHash, Mc, zeros64]
    try norm_num
  · simp [addBlock, isValidBlock, getLatestBlock, stC, blkOverspend, verifyBlockSignature,
      isValidTransaction, verifyTransactionSignature, mapGet, mapSet, nodeChainParams,
      txD1, txD2, genesisBlock, calculateBlockHash, Mc, zeros64, getAddressBalance,
      processBlockTransactions, processTransaction, processRegularTransaction,
      getOrCreateAccount, List.filter, List.foldl]
    try norm_num

/-- C1 witness: part one applied to the accepted block `blkOverspend` (its
transactions are valid in the pre-block state), part two applied to `blkSeq`
whose second transaction carries sequence 1 while `A`'s pre-block sequence
is 0. -/
theorem block_validation_against_preblock_state_witness :
    isValidTransaction stC txD2 = true ∧ (addBlock Mc 0 stC blkSeq).1 = false := by
  constructor
  · refine (block_validation_against_preblock_state Mc 0 stC blkOverspend).1 ?_ txD2 ?_
    · simp [addBlock, isValidBlock, getLatestBlock, stC, blkOverspend, verifyBlockSignature,
        isValidTransaction, verifyTransactionSignature, mapGet, nodeChainParams, txD1, txD2,
        genesisBlock, calculateBlockHash, Mc, zeros64]
      try norm_num
    · simp [blkOverspend]
  · refine (block_validation_against_preblock_state Mc 0 stC blkSeq).2 txR2 ?_ ?_
      { address := "A", balance := 100, nonce := 0, stake := 0 } rfl (by decide)
    · simp [blkSeq]
    · decide

end Aurum
